import Mathlib

/-!
Verification development for the logdog watchdog monitor.

The definitions below are a shallow embedding of the Python sources:
`src/state_machine.py` (class `WatchdogStateMachine` and its dataclasses),
`src/notifier.py` (the state-machine notification builders), and
`src/log_monitor.py` (class `EnhancedLogMonitor`: the per-event rule
processing, the timeout check, and the incremental log reader).

Modelling conventions:
* Timestamps are integer milliseconds (`Int`), passed explicitly as `now`
  where the Python code calls `datetime.now()`.
* Python `dict[str, ...]` becomes an insertion-ordered association list
  (`List (String × _)`): assignment to an existing key keeps its position,
  assignment to a fresh key appends, `del` removes the key, iteration is
  in list order.
* In the Python code `active_states[name]` aliases `states[name]` (the same
  mutable object is stored in both dicts).  The embedding therefore keeps a
  single store `states` and represents `active_states` by its key list
  `active_names`; reads that Python performs through the shared object are
  reads of the entry in `states`.
* History entries are Python f-strings such as "RESET by X"; they are
  embedded as the inductive `HistEvent` keeping the interpolated data.
* Notification messages keep their data fields; surrounding prose and
  quote characters of the message templates are not modelled.
-/

/-- `WatchdogTransition` dataclass from `src/state_machine.py`. -/
structure WatchdogTransition where
  target_node : String
  timeout_ms : Int
  description : String
deriving DecidableEq

/-- `WatchdogState` dataclass from `src/state_machine.py`. -/
structure WatchdogState where
  name : String
  start_node : String
  transitions : List WatchdogTransition
  description : String
  is_active : Bool
  last_activation_time : Option Int
  current_transition_index : Nat
deriving DecidableEq

/-- One entry of `state_history`: the event strings appended by
`WatchdogStateMachine`, keeping the interpolated data of each f-string. -/
inductive HistEvent where
  | ACTIVATED (byNode : String)
  | RESET (byNode : String)
  | TRANSITION (toNode : String)
  | COMPLETED (byNode : String)
  | TIMEOUT (elapsed_ms : Int)
deriving DecidableEq

/-- Python `dict` lookup on the association-list model. -/
def dictGet {α : Type} : List (String × α) → String → Option α
  | [], _ => none
  | (k, v) :: rest, key => if k = key then some v else dictGet rest key

/-- Python `dict` assignment: overwrite in place, or append a fresh key. -/
def dictSet {α : Type} : List (String × α) → String → α → List (String × α)
  | [], key, val => [(key, val)]
  | (k, v) :: rest, key, val =>
      if k = key then (k, val) :: rest else (k, v) :: dictSet rest key val

/-- Python `in` test on a key list. -/
def memb : List String → String → Bool
  | [], _ => false
  | y :: rest, x => if y = x then true else memb rest x

/-- Python `del d[key]` on a key list (removes the first occurrence). -/
def removeName : List String → String → List String
  | [], _ => []
  | y :: rest, x => if y = x then rest else y :: removeName rest x

/-- Python `list[i]` guarded by the caller's bound check. -/
def listNth {α : Type} : List α → Nat → Option α
  | [], _ => none
  | a :: _, 0 => some a
  | _ :: rest, n + 1 => listNth rest n

/-- `WatchdogStateMachine.__init__`: the rule store, the key list of
`active_states` (see the aliasing convention above), and the history. -/
structure WatchdogStateMachine where
  states : List (String × WatchdogState)
  active_names : List String
  state_history : List (String × HistEvent × Int)
deriving DecidableEq

/-- `WatchdogStateMachine.activate_state`. -/
def activate_state (m : WatchdogStateMachine) (state_name trigger_node : String)
    (now : Int) : WatchdogStateMachine × Bool :=
  match dictGet m.states state_name with
  | none => (m, false)
  | some state =>
    if trigger_node ≠ state.start_node then (m, false)
    else if state.is_active then
      ({ m with
          states := dictSet m.states state_name
            { state with last_activation_time := some now },
          state_history :=
            m.state_history ++ [(state_name, HistEvent.RESET trigger_node, now)] },
       true)
    else
      ({ m with
          states := dictSet m.states state_name
            { state with
                is_active := true,
                last_activation_time := some now,
                current_transition_index := 0 },
          active_names :=
            if memb m.active_names state_name then m.active_names
            else m.active_names ++ [state_name],
          state_history :=
            m.state_history ++ [(state_name, HistEvent.ACTIVATED trigger_node, now)] },
       true)

/-- The field resets performed by `WatchdogStateMachine._deactivate_state`
on the shared state object. -/
def deadOf (s : WatchdogState) : WatchdogState :=
  { s with is_active := false, last_activation_time := none,
           current_transition_index := 0 }

/-- `WatchdogStateMachine._deactivate_state`.  The history timestamp is the
same tick `now` at which the caller is running. -/
def deactivate_state (m : WatchdogStateMachine) (state_name : String)
    (reason : HistEvent) (now : Int) : WatchdogStateMachine :=
  if memb m.active_names state_name then
    { states :=
        match dictGet m.states state_name with
        | some state => dictSet m.states state_name (deadOf state)
        | none => m.states
      active_names := removeName m.active_names state_name,
      state_history := m.state_history ++ [(state_name, reason, now)] }
  else m

/-- `WatchdogStateMachine.check_transition`. -/
def check_transition (m : WatchdogStateMachine) (state_name node_name : String)
    (now : Int) : WatchdogStateMachine × Option (Bool × String) :=
  if memb m.active_names state_name then
    match dictGet m.states state_name with
    | none => (m, none)
    | some state =>
      match listNth state.transitions state.current_transition_index with
      | none => (m, none)
      | some current_transition =>
        if node_name = current_transition.target_node then
          let state1 :=
            { state with current_transition_index := state.current_transition_index + 1 }
          let m1 := { m with states := dictSet m.states state_name state1 }
          if state1.current_transition_index ≥ state.transitions.length then
            (deactivate_state m1 state_name (HistEvent.COMPLETED node_name) now,
             some (true, "Rule " ++ state_name ++ " completed successfully"))
          else
            match listNth state1.transitions state1.current_transition_index with
            | none => (m1, none)
            | some next_transition =>
              ({ m1 with
                  states := dictSet m1.states state_name
                    { state1 with last_activation_time := some now },
                  state_history := m1.state_history ++
                    [(state_name, HistEvent.TRANSITION next_transition.target_node, now)] },
               some (false, "Rule " ++ state_name ++ " moved to next transition: "
                              ++ next_transition.target_node))
        else (m, none)
  else (m, none)

/-- The per-instance test of `WatchdogStateMachine.check_timeouts`: skip when
`last_activation_time` is unset or the index is out of range, otherwise
report the elapsed time when it exceeds the current transition's timeout. -/
def timeoutCheck (state : WatchdogState) (now : Int) : Option Int :=
  match state.last_activation_time with
  | none => none
  | some last =>
    match listNth state.transitions state.current_transition_index with
    | none => none
    | some current_transition =>
      if now - last > current_transition.timeout_ms then some (now - last) else none

/-- One iteration of the loop in `WatchdogStateMachine.check_timeouts`.
The appended tuple holds the deactivated field values, because Python
appends a reference to the shared object and then mutates it through
`_deactivate_state`. -/
def checkTimeoutsStep (now : Int)
    (acc : WatchdogStateMachine × List (String × WatchdogState × Int))
    (state_name : String) :
    WatchdogStateMachine × List (String × WatchdogState × Int) :=
  match dictGet acc.1.states state_name with
  | none => acc
  | some state =>
    match timeoutCheck state now with
    | none => acc
    | some elapsed =>
      (deactivate_state acc.1 state_name (HistEvent.TIMEOUT elapsed) now,
       acc.2 ++ [(state_name, deadOf state, elapsed)])

/-- `WatchdogStateMachine.check_timeouts`: iterate over a snapshot of the
active key list, deactivating every timed-out instance. -/
def check_timeouts (m : WatchdogStateMachine) (now : Int) :
    WatchdogStateMachine × List (String × WatchdogState × Int) :=
  m.active_names.foldl (checkTimeoutsStep now) (m, [])

/-- The data fields of the message built by
`WatchdogNotifier.send_state_completed` in `src/notifier.py`. -/
structure StateCompletedNotification where
  state_name : String
  start_node : String
  completed_node : String
  description : String
  timestamp : Int
deriving DecidableEq

/-- `WatchdogNotifier.send_state_completed`. -/
def send_state_completed (state_name : String) (state : WatchdogState)
    (node_name : String) (now : Int) : StateCompletedNotification :=
  { state_name := state_name,
    start_node := state.start_node,
    completed_node := node_name,
    description := state.description,
    timestamp := now }

/-- The data fields of the message built by
`WatchdogNotifier.send_state_timeout` in `src/notifier.py`:
`none` models the literal unknown marker printed when
`current_transition_index` is out of range. -/
structure StateTimeoutNotification where
  state_name : String
  start_node : String
  waiting_target : Option String
  timeout_ms : Option Int
  elapsed_ms : Int
  description : String
  timestamp : Int
deriving DecidableEq

/-- `WatchdogNotifier.send_state_timeout`. -/
def send_state_timeout (state_name : String) (state : WatchdogState)
    (elapsed_ms : Int) (now : Int) : StateTimeoutNotification :=
  let current_transition :=
    if state.current_transition_index < state.transitions.length then
      listNth state.transitions state.current_transition_index
    else none
  { state_name := state_name,
    start_node := state.start_node,
    waiting_target := current_transition.map (fun t => t.target_node),
    timeout_ms := current_transition.map (fun t => t.timeout_ms),
    elapsed_ms := elapsed_ms,
    description := state.description,
    timestamp := now }

/-- A callback handed to the notifier during one monitor cycle.  The
state-machine path of `EnhancedLogMonitor` invokes the notifier only from
these two sites. -/
inductive Notification where
  | stateCompleted (n : StateCompletedNotification)
  | stateTimeout (n : StateTimeoutNotification)
deriving DecidableEq

/-- Result of `EnhancedLogMonitor._check_state_machine_rules` for one event:
the engine after the call, the names printed as triggered, the transition
messages printed, and the notifier callbacks issued. -/
structure CycleResult where
  machine : WatchdogStateMachine
  triggered : List String
  messages : List String
  notifications : List Notification
deriving DecidableEq

/-- One iteration of the activation loop of
`EnhancedLogMonitor._check_state_machine_rules`. -/
def activateStep (node_name : String) (now : Int)
    (acc : WatchdogStateMachine × List String) (state_name : String) :
    WatchdogStateMachine × List String :=
  let r := activate_state acc.1 state_name node_name now
  (r.1, if r.2 then acc.2 ++ [state_name] else acc.2)

/-- One iteration of the transition loop of
`EnhancedLogMonitor._check_state_machine_rules`.  On completion the
notification is built from the shared state object, i.e. from the entry as
it stands after `check_transition` deactivated it. -/
def advanceStep (node_name : String) (now : Int)
    (acc : WatchdogStateMachine × List String × List Notification)
    (state_name : String) :
    WatchdogStateMachine × List String × List Notification :=
  let r := check_transition acc.1 state_name node_name now
  match r.2 with
  | none => (r.1, acc.2.1, acc.2.2)
  | some (is_completed, message) =>
    if is_completed then
      (r.1, acc.2.1 ++ [message],
       acc.2.2 ++
         (match dictGet r.1.states state_name with
          | some st => [Notification.stateCompleted
                          (send_state_completed state_name st node_name now)]
          | none => []))
    else (r.1, acc.2.1 ++ [message], acc.2.2)

/-- `EnhancedLogMonitor._check_state_machine_rules`: for one extracted event,
try to activate every rule, then check transitions over a snapshot of the
active instances (`get_active_states` returns a copy of the dict). -/
def check_state_machine_rules (m : WatchdogStateMachine) (node_name : String)
    (now : Int) : CycleResult :=
  let names := m.states.map Prod.fst
  let act := names.foldl (activateStep node_name now) (m, [])
  let adv := act.1.active_names.foldl (advanceStep node_name now) (act.1, [], [])
  { machine := adv.1, triggered := act.2, messages := adv.2.1,
    notifications := adv.2.2 }

/-- The state-machine part of `EnhancedLogMonitor._check_timeouts`: run the
engine sweep, then send one timeout notification per reported tuple. -/
def monitor_check_timeouts (m : WatchdogStateMachine) (now : Int) :
    WatchdogStateMachine × List Notification :=
  let r := check_timeouts m now
  (r.1, r.2.map (fun t =>
    Notification.stateTimeout (send_state_timeout t.1 t.2.1 t.2.2 now)))

/-- Python `new_content.split(chr(10))` on the character-list model of the
stream contents. -/
def splitNl : List Char → List (List Char)
  | [] => [[]]
  | c :: rest =>
    if c = '\n' then [] :: splitNl rest
    else
      match splitNl rest with
      | [] => [[c]]
      | s :: ss => (c :: s) :: ss

/-- Python `new_content.endswith(chr(10))`. -/
def endsWithNl (cs : List Char) : Bool :=
  match cs.getLast? with
  | some c => c = '\n'
  | none => false

/-- Python truthiness of `line.strip()`: true when the line is all
whitespace. -/
def isBlankLine (l : List Char) : Bool :=
  l.all (fun c => c.isWhitespace)

/-- The open log file of `EnhancedLogMonitor`: the full stream contents and
the reader's current offset (`self.log_file.tell()`). -/
structure LogReader where
  content : List Char
  position : Nat
deriving DecidableEq

/-- `EnhancedLogMonitor._read_new_log_lines`: read everything past the
current offset, split into lines, hold back an unterminated trailing line
only when more than one line was read (rewinding the offset past it), and
return the non-blank lines. -/
def read_new_log_lines (r : LogReader) : LogReader × List (List Char) :=
  let current_position := r.position
  let end_position := r.content.length
  if end_position ≤ current_position then (r, [])
  else
    let new_content := r.content.drop current_position
    let lines := splitNl new_content
    let kept :=
      if endsWithNl new_content = false ∧ 1 < lines.length then
        match lines.getLast? with
        | some incomplete_line => (lines.dropLast, end_position - incomplete_line.length)
        | none => (lines, end_position)
      else (lines, end_position)
    ({ r with position := kept.2 },
     kept.1.filter (fun l => isBlankLine l = false))

/-- `remaining_ms` and its companions in the dictionary built by
`WatchdogStateMachine.get_state_status`; optional dictionary keys are
`Option` fields, absent keys are `none`. -/
structure StateStatus where
  name : String
  start_node : String
  description : String
  is_active : Bool
  transitions : List WatchdogTransition
  current_transition_index : Option Nat
  current_target : Option String
  current_timeout : Option Int
  elapsed_ms : Option Int
  remaining_ms : Option Int
deriving DecidableEq

/-- `WatchdogStateMachine.get_state_status`. -/
def get_state_status (m : WatchdogStateMachine) (state_name : String)
    (now : Int) : Option StateStatus :=
  match dictGet m.states state_name with
  | none => none
  | some state =>
    let base : StateStatus :=
      { name := state.name, start_node := state.start_node,
        description := state.description, is_active := state.is_active,
        transitions := state.transitions,
        current_transition_index := none, current_target := none,
        current_timeout := none, elapsed_ms := none, remaining_ms := none }
    if state.is_active then
      let s1 := { base with
        current_transition_index := some state.current_transition_index }
      if state.current_transition_index < state.transitions.length then
        match listNth state.transitions state.current_transition_index with
        | none => some s1
        | some current_transition =>
          let s2 := { s1 with
            current_target := some current_transition.target_node,
            current_timeout := some current_transition.timeout_ms }
          match state.last_activation_time with
          | none => some s2
          | some last =>
            let elapsed := now - last
            some { s2 with
              elapsed_ms := some elapsed,
              remaining_ms := some (max 0 (current_transition.timeout_ms - elapsed)) }
      else some s1
    else some base

/-! ### Association-list and key-list lemmas -/

theorem dictGet_dictSet_self {α : Type} (d : List (String × α)) (k : String) (v : α) :
    dictGet (dictSet d k v) k = some v := by
  induction d with
  | nil => simp [dictGet, dictSet]
  | cons p rest ih =>
    obtain ⟨k0, v0⟩ := p
    by_cases h : k0 = k
    · simp [dictGet, dictSet, h]
    · simp [dictGet, dictSet, h, ih]

theorem dictGet_dictSet_ne {α : Type} (d : List (String × α)) (k k' : String) (v : α)
    (h : k ≠ k') : dictGet (dictSet d k v) k' = dictGet d k' := by
  induction d with
  | nil => simp [dictGet, dictSet, h]
  | cons p rest ih =>
    obtain ⟨k0, v0⟩ := p
    by_cases hk : k0 = k
    · subst hk
      simp [dictGet, dictSet, h]
    · by_cases hk' : k0 = k'
      · simp [dictGet, dictSet, hk, hk', Ne.symm h]
      · simp [dictGet, dictSet, hk, hk', ih]

theorem dictSet_dictSet_self {α : Type} (d : List (String × α)) (k : String) (v w : α) :
    dictSet (dictSet d k v) k w = dictSet d k w := by
  induction d with
  | nil => simp [dictSet]
  | cons p rest ih =>
    obtain ⟨k0, v0⟩ := p
    by_cases h : k0 = k
    · simp [dictSet, h]
    · simp [dictSet, h, ih]

theorem dictGet_mem {α : Type} (d : List (String × α)) (k : String) (v : α)
    (h : dictGet d k = some v) : (k, v) ∈ d := by
  induction d with
  | nil => simp [dictGet] at h
  | cons p rest ih =>
    obtain ⟨k0, v0⟩ := p
    by_cases hk : k0 = k
    · subst hk
      simp [dictGet] at h
      simp [h]
    · simp [dictGet, hk] at h
      exact List.mem_cons_of_mem _ (ih h)

theorem memb_iff (l : List String) (x : String) : memb l x = true ↔ x ∈ l := by
  induction l with
  | nil => simp [memb]
  | cons y rest ih =>
    by_cases h : y = x
    · simp [memb, h]
    · simp [memb, h, ih, Ne.symm h]

theorem memb_eq_false_iff (l : List String) (x : String) :
    memb l x = false ↔ x ∉ l := by
  rw [← memb_iff]
  cases memb l x <;> simp

theorem removeName_sublist (l : List String) (x : String) :
    (removeName l x).Sublist l := by
  induction l with
  | nil => simp [removeName]
  | cons y rest ih =>
    by_cases h : y = x
    · subst h
      simp [removeName]
    · simpa [removeName, h] using List.Sublist.cons₂ y ih

theorem nodup_removeName (l : List String) (x : String) (h : l.Nodup) :
    (removeName l x).Nodup :=
  (removeName_sublist l x).nodup h

theorem memb_removeName_self (l : List String) (x : String) (h : l.Nodup) :
    memb (removeName l x) x = false := by
  induction l with
  | nil => simp [removeName, memb]
  | cons y rest ih =>
    rw [List.nodup_cons] at h
    by_cases hy : y = x
    · subst hy
      simp [removeName, memb_eq_false_iff]
      exact h.1
    · simp [removeName, memb, hy, ih h.2]

theorem memb_removeName_le (l : List String) (x y : String)
    (h : memb (removeName l x) y = true) : memb l y = true := by
  rw [memb_iff] at h ⊢
  exact (removeName_sublist l x).mem h

theorem removeName_append_self (l : List String) (x : String)
    (h : memb l x = false) : removeName (l ++ [x]) x = l := by
  induction l with
  | nil => simp [removeName]
  | cons y rest ih =>
    simp [memb] at h
    by_cases hy : y = x
    · simp [hy] at h
    · simp [removeName, hy, ih (by simpa [memb, hy] using h)]

theorem nodup_append_singleton (l : List String) (x : String) (h : l.Nodup)
    (hx : memb l x = false) : (l ++ [x]).Nodup := by
  rw [memb_eq_false_iff] at hx
  simp [List.nodup_append, h, hx]

theorem foldl_preserve {α β : Type} (step : α → β → α) (P : α → Prop)
    (hstep : ∀ a b, P a → P (step a b)) :
    ∀ (l : List β) (a : α), P a → P (l.foldl step a) := by
  intro l
  induction l with
  | nil => intro a ha; simpa using ha
  | cons b rest ih =>
    intro a ha
    simpa [List.foldl] using ih (step a b) (hstep a b ha)

/-! ### Claim theorems: concrete scenario evaluations -/

/-- C1: for rule R = start "A", steps [(100ms,"B"),(200ms,"C")], after the
sequence A then B@+50ms a sweep at +301ms removes the instance and appends
TIMEOUT with the elapsed time measured from the B transition (251ms), as
the claim states; but the timeout callback built by `send_state_timeout`
names expected target "B" with threshold 100ms, not the pending step's
target "C" with threshold 200ms, because `check_timeouts` deactivates the
shared state object (resetting `current_transition_index` to 0) before the
notifier reads it.  This evaluates the code at the claim's own scenario and
exhibits the divergence. -/
theorem C1_timeout_callback_reports_first_step_target :
    (let m0 : WatchdogStateMachine :=
      { states := [("R",
          { name := "R", start_node := "A",
            transitions := [{ target_node := "B", timeout_ms := 100, description := "" },
                            { target_node := "C", timeout_ms := 200, description := "" }],
            description := "", is_active := false, last_activation_time := none,
            current_transition_index := 0 })],
        active_names := [], state_history := [] }
     let m1 := (check_state_machine_rules m0 "A" 0).machine
     let m2 := (check_state_machine_rules m1 "B" 50).machine
     let r := monitor_check_timeouts m2 301
     r.1.active_names = []
     ∧ r.1.state_history.getLast? = some ("R", HistEvent.TIMEOUT 251, 301)
     ∧ r.2 = [Notification.stateTimeout
         { state_name := "R", start_node := "A", waiting_target := some "B",
           timeout_ms := some 100, elapsed_ms := 251, description := "",
           timestamp := 301 }]) := by
  decide

/-- C3: a trailing line lacking a newline terminator IS returned by
`read_new_log_lines` when the newly appended content consists of a single
unterminated line (the `1 < lines.length` guard fails), contradicting the
claim and the code's own hold-back comment; in the multi-line case the
unterminated tail is correctly held back and the position rewound past the
terminated prefix. -/
theorem C3_single_unterminated_line_is_emitted :
    (read_new_log_lines { content := ['a', 'b', 'c'], position := 0 }).2 = [['a', 'b', 'c']]
    ∧ (read_new_log_lines { content := ['a', 'b', 'c'], position := 0 }).1.position = 3
    ∧ (read_new_log_lines { content := ['x', '\n', 'a', 'b'], position := 0 }).2 = [['x']]
    ∧ (read_new_log_lines { content := ['x', '\n', 'a', 'b'], position := 0 }).1.position = 2 := by
  decide

/-- C2 counterexample: for the heartbeat-style rule H = start "A", single
step (100ms,"A"), a single occurrence of node "A" processed by
`check_state_machine_rules` activates the instance and then immediately
completes it in the same event (trigger and advance both run), producing a
COMPLETED history entry and a completion notification — refuting the claim
that such a rule can never complete via advance. -/
theorem C2_counterexample_heartbeat_completes :
    (let m0 : WatchdogStateMachine :=
      { states := [("H",
          { name := "H", start_node := "A",
            transitions := [{ target_node := "A", timeout_ms := 100, description := "" }],
            description := "", is_active := false, last_activation_time := none,
            current_transition_index := 0 })],
        active_names := [], state_history := [] }
     let r := check_state_machine_rules m0 "A" 7
     r.notifications = [Notification.stateCompleted
        { state_name := "H", start_node := "A", completed_node := "A",
          description := "", timestamp := 7 }]
     ∧ r.machine.active_names = []
     ∧ r.machine.state_history =
        [("H", HistEvent.ACTIVATED "A", 7), ("H", HistEvent.COMPLETED "A", 7)]) := by
  decide

/-- C4 counterexample: two runs of rule R2 = start "A", single step
(100ms,"B") that differ only in the activation instant (A at 0 versus A at
90, so total elapsed 100ms versus 10ms, both completing at timestamp 100)
produce byte-for-byte identical completion callbacks — so the completion
callback carries no elapsed time, refuting the claimed callback shape
(rule_name, final_node, elapsed_ms, timestamp). -/
theorem C4_counterexample_completion_callback_lacks_elapsed :
    (let m0 : WatchdogStateMachine :=
      { states := [("R2",
          { name := "R2", start_node := "A",
            transitions := [{ target_node := "B", timeout_ms := 100, description := "" }],
            description := "", is_active := false, last_activation_time := none,
            current_transition_index := 0 })],
        active_names := [], state_history := [] }
     let run1 := check_state_machine_rules (check_state_machine_rules m0 "A" 0).machine "B" 100
     let run2 := check_state_machine_rules (check_state_machine_rules m0 "A" 90).machine "B" 100
     run1.notifications = [Notification.stateCompleted
        { state_name := "R2", start_node := "A", completed_node := "B",
          description := "", timestamp := 100 }]
     ∧ run2.notifications = run1.notifications
     ∧ run1.machine.active_names = []
     ∧ run1.machine.state_history.getLast? = some ("R2", HistEvent.COMPLETED "B", 100)) := by
  decide

/-- C5 counterexample: observing rule R2's start node "A" with no existing
instance does create an instance with index 0 and activation time now and
does append ACTIVATED to history, but the cycle hands NO callback to the
notifier (`_check_state_machine_rules` only prints on activation; the
notifier is never invoked), refuting the claimed activation callback. -/
theorem C5_counterexample_activation_sends_no_callback :
    (let m0 : WatchdogStateMachine :=
      { states := [("R2",
          { name := "R2", start_node := "A",
            transitions := [{ target_node := "B", timeout_ms := 100, description := "" }],
            description := "", is_active := false, last_activation_time := none,
            current_transition_index := 0 })],
        active_names := [], state_history := [] }
     let r := check_state_machine_rules m0 "A" 0
     r.machine.active_names = ["R2"]
     ∧ dictGet r.machine.states "R2" = some
        { name := "R2", start_node := "A",
          transitions := [{ target_node := "B", timeout_ms := 100, description := "" }],
          description := "", is_active := true, last_activation_time := some 0,
          current_transition_index := 0 }
     ∧ r.machine.state_history = [("R2", HistEvent.ACTIVATED "A", 0)]
     ∧ r.notifications = []) := by
  decide

/-! ### Claim theorems: general properties -/

/-- C10: whenever the detailed status query reports a `remaining_ms`, it is
`max 0 (timeout_ms - elapsed_ms)` for the reported current timeout and
elapsed time, hence never negative, and it is 0 whenever the elapsed time
has already reached or passed the timeout. -/
theorem C10_remaining_ms_clamped (m : WatchdogStateMachine) (state_name : String)
    (now : Int) (st : StateStatus) (r : Int)
    (h : get_state_status m state_name now = some st)
    (hr : st.remaining_ms = some r) :
    0 ≤ r ∧ ∃ c e, st.current_timeout = some c ∧ st.elapsed_ms = some e
      ∧ r = max 0 (c - e) ∧ (c ≤ e → r = 0) := by
  rw [get_state_status] at h
  cases hget : dictGet m.states state_name with
  | none => rw [hget] at h; cases h
  | some state =>
    rw [hget] at h
    dsimp only at h
    by_cases ha : state.is_active
    · rw [if_pos ha] at h
      by_cases hi : state.current_transition_index < state.transitions.length
      · rw [if_pos hi] at h
        cases hnth : listNth state.transitions state.current_transition_index with
        | none =>
          rw [hnth] at h
          cases h
          cases hr
        | some ct =>
          rw [hnth] at h
          cases hlast : state.last_activation_time with
          | none =>
            rw [hlast] at h
            cases h
            cases hr
          | some last =>
            rw [hlast] at h
            cases h
            injection hr with hr
            subst hr
            refine ⟨le_max_left 0 _, ct.timeout_ms, now - last, rfl, rfl, rfl, ?_⟩
            intro hce
            exact max_eq_left (by omega)
      · rw [if_neg hi] at h
        cases h
        cases hr
    · rw [if_neg ha] at h
      cases h
      cases hr

/-- C10 witness: a rule that is 400ms past its 100ms deadline reports
remaining time 0 rather than a negative remainder. -/
theorem C10_remaining_ms_clamped_witness :
    0 ≤ (0 : Int) ∧ ∃ c e,
      (StateStatus.mk "R" "A" "" true
        [{ target_node := "B", timeout_ms := 100, description := "" }]
        (some 0) (some "B") (some 100) (some 500) (some 0)).current_timeout = some c
      ∧ (StateStatus.mk "R" "A" "" true
        [{ target_node := "B", timeout_ms := 100, description := "" }]
        (some 0) (some "B") (some 100) (some 500) (some 0)).elapsed_ms = some e
      ∧ (0 : Int) = max 0 (c - e) ∧ (c ≤ e → (0 : Int) = 0) := by
  exact C10_remaining_ms_clamped
    { states := [("R",
        { name := "R", start_node := "A",
          transitions := [{ target_node := "B", timeout_ms := 100, description := "" }],
          description := "", is_active := true, last_activation_time := some 0,
          current_transition_index := 0 })],
      active_names := ["R"], state_history := [] }
    "R" 500 _ 0 rfl rfl

/-- Every notifier callback issued by one event-processing pass is a
completion notification: the state-machine path of the monitor never hands
an activation (or any other) callback to the notifier. -/
theorem advanceStep_notifs_completed (node_name : String) (now : Int)
    (acc : WatchdogStateMachine × List String × List Notification) (state_name : String)
    (h : ∀ nt ∈ acc.2.2, ∃ c, nt = Notification.stateCompleted c) :
    ∀ nt ∈ (advanceStep node_name now acc state_name).2.2,
      ∃ c, nt = Notification.stateCompleted c := by
  intro nt hnt
  unfold advanceStep at hnt
  dsimp only at hnt
  cases hct : (check_transition acc.1 state_name node_name now).2 with
  | none =>
    rw [hct] at hnt
    exact h nt hnt
  | some p =>
    obtain ⟨is_completed, message⟩ := p
    rw [hct] at hnt
    cases is_completed with
    | false =>
      simp only [if_neg] at hnt
      exact h nt hnt
    | true =>
      simp only [if_pos] at hnt
      rcases List.mem_append.mp hnt with h1 | h2
      · exact h nt h1
      · cases hd : dictGet (check_transition acc.1 state_name node_name now).1.states state_name with
        | none => rw [hd] at h2; cases h2
        | some st =>
          rw [hd] at h2
          simp only [List.mem_singleton] at h2
          exact ⟨_, h2⟩

theorem notifs_all_completed (m : WatchdogStateMachine) (node_name : String) (now : Int) :
    ∀ nt ∈ (check_state_machine_rules m node_name now).notifications,
      ∃ c, nt = Notification.stateCompleted c := by
  unfold check_state_machine_rules
  dsimp only
  refine foldl_preserve (advanceStep node_name now)
    (fun a => ∀ nt ∈ a.2.2, ∃ c, nt = Notification.stateCompleted c)
    (advanceStep_notifs_completed node_name now) _ _ ?_
  intro nt hnt
  cases hnt

/-- C6: re-triggering an active rule's start node resets the instance in
place: `activate_state` only sets `last_activation_time := now` on the
stored instance (the step index is untouched), appends RESET to history,
leaves the active key set unchanged (no second instance), and processing
the event hands no activation callback to the notifier (the only callbacks
an event pass can produce are completion callbacks). -/
theorem C6_retrigger_resets_in_place (m : WatchdogStateMachine)
    (state_name trigger_node : String) (now : Int) (s : WatchdogState)
    (hs : dictGet m.states state_name = some s)
    (hact : s.is_active = true)
    (htrig : trigger_node = s.start_node) :
    activate_state m state_name trigger_node now =
      ({ m with
          states := dictSet m.states state_name { s with last_activation_time := some now },
          state_history :=
            m.state_history ++ [(state_name, HistEvent.RESET trigger_node, now)] },
       true)
    ∧ (activate_state m state_name trigger_node now).1.active_names = m.active_names
    ∧ dictGet (activate_state m state_name trigger_node now).1.states state_name
        = some { s with last_activation_time := some now }
    ∧ (∀ nt ∈ (check_state_machine_rules m trigger_node now).notifications,
         ∃ c, nt = Notification.stateCompleted c) := by
  have heq : activate_state m state_name trigger_node now =
      ({ m with
          states := dictSet m.states state_name { s with last_activation_time := some now },
          state_history :=
            m.state_history ++ [(state_name, HistEvent.RESET trigger_node, now)] },
       true) := by
    subst htrig
    simp only [activate_state, hs]
    simp [hact]
  refine ⟨heq, ?_, ?_, notifs_all_completed m trigger_node now⟩
  · rw [heq]
  · rw [heq]
    exact dictGet_dictSet_self m.states state_name _

/-- C6 witness: re-triggering the active rule R leaves its active key set
as the single entry ["R"]. -/
theorem C6_retrigger_resets_in_place_witness :
    (activate_state
      { states := [("R",
          { name := "R", start_node := "A",
            transitions := [{ target_node := "B", timeout_ms := 100, description := "" }],
            description := "", is_active := true, last_activation_time := some 0,
            current_transition_index := 0 })],
        active_names := ["R"], state_history := [] }
      "R" "A" 42).1.active_names = ["R"] := by
  have h := C6_retrigger_resets_in_place
    { states := [("R",
        { name := "R", start_node := "A",
          transitions := [{ target_node := "B", timeout_ms := 100, description := "" }],
          description := "", is_active := true, last_activation_time := some 0,
          current_transition_index := 0 })],
      active_names := ["R"], state_history := [] }
    "R" "A" 42
    { name := "R", start_node := "A",
      transitions := [{ target_node := "B", timeout_ms := 100, description := "" }],
      description := "", is_active := true, last_activation_time := some 0,
      current_transition_index := 0 }
    rfl rfl rfl
  rw [h.2.1]

/-- C5 (amended): when a rule's start node is observed and no instance for
that rule exists, `activate_state` creates the instance with step index 0
and activation time `now` and appends ACTIVATED to history — but no
activation callback is handed to the notifier: the only callbacks an event
pass can produce are completion notifications. -/
theorem C5_activation_creates_instance_no_callback (m : WatchdogStateMachine)
    (state_name trigger_node : String) (now : Int) (s : WatchdogState)
    (hs : dictGet m.states state_name = some s)
    (hact : s.is_active = false)
    (hmem : memb m.active_names state_name = false)
    (htrig : trigger_node = s.start_node) :
    activate_state m state_name trigger_node now =
      ({ m with
          states := dictSet m.states state_name
            { s with is_active := true, last_activation_time := some now,
                     current_transition_index := 0 },
          active_names := m.active_names ++ [state_name],
          state_history :=
            m.state_history ++ [(state_name, HistEvent.ACTIVATED trigger_node, now)] },
       true)
    ∧ dictGet (activate_state m state_name trigger_node now).1.states state_name
        = some { s with is_active := true, last_activation_time := some now,
                        current_transition_index := 0 }
    ∧ (∀ node2 now2, ∀ nt ∈ (check_state_machine_rules m node2 now2).notifications,
         ∃ c, nt = Notification.stateCompleted c) := by
  have heq : activate_state m state_name trigger_node now =
      ({ m with
          states := dictSet m.states state_name
            { s with is_active := true, last_activation_time := some now,
                     current_transition_index := 0 },
          active_names := m.active_names ++ [state_name],
          state_history :=
            m.state_history ++ [(state_name, HistEvent.ACTIVATED trigger_node, now)] },
       true) := by
    subst htrig
    simp only [activate_state, hs]
    simp [hact, hmem]
  refine ⟨heq, ?_, fun node2 now2 => notifs_all_completed m node2 now2⟩
  rw [heq]
  exact dictGet_dictSet_self m.states state_name _

/-- C5 witness: activating the fresh rule R2 yields exactly one active key. -/
theorem C5_activation_creates_instance_no_callback_witness :
    (activate_state
      { states := [("R2",
          { name := "R2", start_node := "A",
            transitions := [{ target_node := "B", timeout_ms := 100, description := "" }],
            description := "", is_active := false, last_activation_time := none,
            current_transition_index := 0 })],
        active_names := [], state_history := [] }
      "R2" "A" 5).1.active_names = ["R2"] := by
  have h := C5_activation_creates_instance_no_callback
    { states := [("R2",
        { name := "R2", start_node := "A",
          transitions := [{ target_node := "B", timeout_ms := 100, description := "" }],
          description := "", is_active := false, last_activation_time := none,
          current_transition_index := 0 })],
      active_names := [], state_history := [] }
    "R2" "A" 5
    { name := "R2", start_node := "A",
      transitions := [{ target_node := "B", timeout_ms := 100, description := "" }],
      description := "", is_active := false, last_activation_time := none,
      current_transition_index := 0 }
    rfl rfl rfl rfl
  rw [h.1]
  rfl

/-- C4 (amended): when the observed node matches the current step's target
and the incremented index reaches the step count, `check_transition`
removes the instance from the active set, appends COMPLETED to history,
and the completion callback built from the (now deactivated) instance
carries (rule_name, start_node, final_node, description, timestamp) — with
no elapsed-time field. -/
theorem C4_completion_removes_and_notifies (m : WatchdogStateMachine)
    (state_name node_name : String) (now : Int) (s : WatchdogState)
    (tr : WatchdogTransition)
    (hmem : memb m.active_names state_name = true)
    (hs : dictGet m.states state_name = some s)
    (hnth : listNth s.transitions s.current_transition_index = some tr)
    (htgt : node_name = tr.target_node)
    (hlen : s.current_transition_index + 1 ≥ s.transitions.length) :
    check_transition m state_name node_name now =
      ({ states := dictSet m.states state_name (deadOf s),
         active_names := removeName m.active_names state_name,
         state_history :=
           m.state_history ++ [(state_name, HistEvent.COMPLETED node_name, now)] },
       some (true, "Rule " ++ state_name ++ " completed successfully"))
    ∧ send_state_completed state_name (deadOf s) node_name now =
        { state_name := state_name, start_node := s.start_node,
          completed_node := node_name, description := s.description,
          timestamp := now } := by
  refine ⟨?_, rfl⟩
  subst htgt
  simp only [check_transition, hs, hnth, hmem, if_true]
  rw [if_pos hlen]
  simp only [deactivate_state, hmem, if_true, dictGet_dictSet_self,
    dictSet_dictSet_self]
  rfl

/-- C4 witness: completing the single-step rule R2 leaves no active key. -/
theorem C4_completion_removes_and_notifies_witness :
    (check_transition
      { states := [("R2",
          { name := "R2", start_node := "A",
            transitions := [{ target_node := "B", timeout_ms := 100, description := "" }],
            description := "", is_active := true, last_activation_time := some 0,
            current_transition_index := 0 })],
        active_names := ["R2"], state_history := [] }
      "R2" "B" 40).1.active_names = [] := by
  have h := C4_completion_removes_and_notifies
    { states := [("R2",
        { name := "R2", start_node := "A",
          transitions := [{ target_node := "B", timeout_ms := 100, description := "" }],
          description := "", is_active := true, last_activation_time := some 0,
          current_transition_index := 0 })],
      active_names := ["R2"], state_history := [] }
    "R2" "B" 40
    { name := "R2", start_node := "A",
      transitions := [{ target_node := "B", timeout_ms := 100, description := "" }],
      description := "", is_active := true, last_activation_time := some 0,
      current_transition_index := 0 }
    { target_node := "B", timeout_ms := 100, description := "" }
    rfl rfl rfl rfl (by decide)
  rw [h.1]
  rfl

/-- Does the event's node name equal some rule's `start_node`?  (The
condition under which the activation loop can do anything.) -/
def node_matches_start (m : WatchdogStateMachine) (node_name : String) : Bool :=
  m.states.any (fun p => p.2.start_node == node_name)

/-- Does the event's node name equal the current step's `target_node` of
some active instance?  (The condition under which the transition loop can
do anything.) -/
def node_matches_active_target (m : WatchdogStateMachine) (node_name : String) : Bool :=
  m.active_names.any (fun n =>
    match dictGet m.states n with
    | none => false
    | some s =>
      match listNth s.transitions s.current_transition_index with
      | none => false
      | some tr => tr.target_node == node_name)


theorem activate_state_no_start_match (m : WatchdogStateMachine)
    (node_name : String) (now : Int)
    (h : node_matches_start m node_name = false) (state_name : String) :
    activate_state m state_name node_name now = (m, false) := by
  rw [node_matches_start] at h
  unfold activate_state
  cases hg : dictGet m.states state_name with
  | none => rfl
  | some s =>
    dsimp only
    have hp := (List.any_eq_false.mp h) (state_name, s) (dictGet_mem m.states state_name s hg)
    have hne : node_name ≠ s.start_node := by
      intro he
      exact hp (by simp [he.symm])
    rw [if_pos hne]

theorem check_transition_no_target_match (m : WatchdogStateMachine)
    (node_name : String) (now : Int)
    (h : node_matches_active_target m node_name = false) (state_name : String) :
    check_transition m state_name node_name now = (m, none) := by
  rw [node_matches_active_target] at h
  unfold check_transition
  by_cases hm : memb m.active_names state_name = true
  · rw [if_pos hm]
    cases hg : dictGet m.states state_name with
    | none => rfl
    | some s =>
      dsimp only
      cases hn : listNth s.transitions s.current_transition_index with
      | none => rfl
      | some tr =>
        dsimp only
        have hp := (List.any_eq_false.mp h) state_name ((memb_iff _ _).mp hm)
        rw [hg] at hp
        dsimp only at hp
        rw [hn] at hp
        dsimp only at hp
        have hne : ¬ node_name = tr.target_node := by
          intro he
          exact hp (by simp [he])
        rw [if_neg hne]
  · simp [hm]

theorem foldl_activate_id (node_name : String) (now : Int) (m : WatchdogStateMachine)
    (h : ∀ state_name, activate_state m state_name node_name now = (m, false)) :
    ∀ (l : List String) (trig : List String),
      l.foldl (activateStep node_name now) (m, trig) = (m, trig) := by
  intro l
  induction l with
  | nil => intro trig; rfl
  | cons a rest ih =>
    intro trig
    rw [List.foldl_cons]
    have hstep : activateStep node_name now (m, trig) a = (m, trig) := by
      unfold activateStep
      dsimp only
      rw [h a]
      rfl
    rw [hstep]
    exact ih trig

theorem foldl_advance_id (node_name : String) (now : Int) (m : WatchdogStateMachine)
    (h : ∀ state_name, check_transition m state_name node_name now = (m, none)) :
    ∀ (l : List String) (msgs : List String) (ns : List Notification),
      l.foldl (advanceStep node_name now) (m, msgs, ns) = (m, msgs, ns) := by
  intro l
  induction l with
  | nil => intro msgs ns; rfl
  | cons a rest ih =>
    intro msgs ns
    rw [List.foldl_cons]
    have hstep : advanceStep node_name now (m, msgs, ns) a = (m, msgs, ns) := by
      unfold advanceStep
      dsimp only
      rw [h a]
    rw [hstep]
    exact ih msgs ns

/-- C9: an event whose node name matches neither any rule's `start_node`
nor the current step's `target_node` of any active instance leaves the
engine byte-for-byte unchanged — every instance's fields, the active key
set, and the history are all untouched, and nothing is printed or sent. -/
theorem C9_unmatched_event_is_noop (m : WatchdogStateMachine)
    (node_name : String) (now : Int)
    (h1 : node_matches_start m node_name = false)
    (h2 : node_matches_active_target m node_name = false) :
    check_state_machine_rules m node_name now =
      { machine := m, triggered := [], messages := [], notifications := [] } := by
  unfold check_state_machine_rules
  dsimp only
  rw [foldl_activate_id node_name now m
    (activate_state_no_start_match m node_name now h1) (m.states.map Prod.fst) []]
  dsimp only
  rw [foldl_advance_id node_name now m
    (check_transition_no_target_match m node_name now h2) m.active_names [] []]

/-- C9 witness: node "Z" matches nothing in a machine with one active rule
(start "A", waiting for "B"), so processing it changes nothing. -/
theorem C9_unmatched_event_is_noop_witness :
    check_state_machine_rules
      { states := [("R",
          { name := "R", start_node := "A",
            transitions := [{ target_node := "B", timeout_ms := 100, description := "" }],
            description := "", is_active := true, last_activation_time := some 0,
            current_transition_index := 0 })],
        active_names := ["R"],
        state_history := [("R", HistEvent.ACTIVATED "A", 0)] }
      "Z" 50 =
      { machine :=
          { states := [("R",
              { name := "R", start_node := "A",
                transitions := [{ target_node := "B", timeout_ms := 100, description := "" }],
                description := "", is_active := true, last_activation_time := some 0,
                current_transition_index := 0 })],
            active_names := ["R"],
            state_history := [("R", HistEvent.ACTIVATED "A", 0)] },
        triggered := [], messages := [], notifications := [] } := by
  exact C9_unmatched_event_is_noop _ "Z" 50 (by decide) (by decide)

/-- C2 (amended): for every heartbeat-style rule — single step whose
`target_node` equals the rule's `start_node` — processing one occurrence of
that node activates the instance and immediately completes it within the
same event, because trigger and advance are both evaluated for the event:
ACTIVATED and COMPLETED are appended back to back, a completion
notification fires, the stored instance returns to its inactive resting
fields, and no instance remains active.  Reset and timeout are therefore
not the outcomes such a rule reaches; completion is. -/
theorem C2_heartbeat_occurrence_activates_and_completes
    (nm sn ds tds : String) (tms : Int)
    (hist : List (String × HistEvent × Int)) (now : Int) :
    check_state_machine_rules
      { states := [(nm,
          { name := nm, start_node := sn,
            transitions := [{ target_node := sn, timeout_ms := tms, description := tds }],
            description := ds, is_active := false, last_activation_time := none,
            current_transition_index := 0 })],
        active_names := [], state_history := hist }
      sn now =
      { machine :=
          { states := [(nm,
              { name := nm, start_node := sn,
                transitions := [{ target_node := sn, timeout_ms := tms, description := tds }],
                description := ds, is_active := false, last_activation_time := none,
                current_transition_index := 0 })],
            active_names := [],
            state_history := hist ++
              [(nm, HistEvent.ACTIVATED sn, now), (nm, HistEvent.COMPLETED sn, now)] },
        triggered := [nm],
        messages := ["Rule " ++ nm ++ " completed successfully"],
        notifications := [Notification.stateCompleted
          { state_name := nm, start_node := sn, completed_node := sn,
            description := ds, timestamp := now }] } := by
  simp [check_state_machine_rules, activateStep, advanceStep, activate_state,
    check_transition, deactivate_state, deadOf, send_state_completed,
    dictGet, dictSet, memb, removeName, listNth, List.foldl]

/-! ### The unique-active-instance invariant -/

theorem activate_state_nodup (m : WatchdogStateMachine)
    (state_name trigger_node : String) (now : Int) (h : m.active_names.Nodup) :
    (activate_state m state_name trigger_node now).1.active_names.Nodup := by
  unfold activate_state
  cases hg : dictGet m.states state_name with
  | none => exact h
  | some s =>
    dsimp only
    by_cases hne : trigger_node ≠ s.start_node
    · rw [if_pos hne]; exact h
    · rw [if_neg hne]
      by_cases ha : s.is_active = true
      · rw [if_pos ha]; exact h
      · rw [if_neg ha]
        by_cases hm : memb m.active_names state_name = true
        · rw [if_pos hm]; exact h
        · rw [if_neg hm]
          exact nodup_append_singleton _ _ h (by simpa using hm)

theorem deactivate_state_nodup (m : WatchdogStateMachine) (state_name : String)
    (reason : HistEvent) (now : Int) (h : m.active_names.Nodup) :
    (deactivate_state m state_name reason now).active_names.Nodup := by
  unfold deactivate_state
  by_cases hm : memb m.active_names state_name = true
  · rw [if_pos hm]
    exact nodup_removeName _ _ h
  · rw [if_neg hm]; exact h

theorem check_transition_nodup (m : WatchdogStateMachine)
    (state_name node_name : String) (now : Int) (h : m.active_names.Nodup) :
    (check_transition m state_name node_name now).1.active_names.Nodup := by
  unfold check_transition
  by_cases hm : memb m.active_names state_name = true
  · rw [if_pos hm]
    cases hg : dictGet m.states state_name with
    | none => exact h
    | some s =>
      dsimp only
      cases hn : listNth s.transitions s.current_transition_index with
      | none => exact h
      | some tr =>
        dsimp only
        by_cases ht : node_name = tr.target_node
        · rw [if_pos ht]
          by_cases hl : s.current_transition_index + 1 ≥ s.transitions.length
          · rw [if_pos hl]
            exact deactivate_state_nodup _ _ _ _ h
          · rw [if_neg hl]
            cases hn2 : listNth s.transitions (s.current_transition_index + 1) with
            | none => exact h
            | some tr2 => exact h
        · rw [if_neg ht]; exact h
  · rw [if_neg hm]; exact h

theorem checkTimeoutsStep_nodup (now : Int)
    (acc : WatchdogStateMachine × List (String × WatchdogState × Int))
    (state_name : String) (h : acc.1.active_names.Nodup) :
    (checkTimeoutsStep now acc state_name).1.active_names.Nodup := by
  unfold checkTimeoutsStep
  cases hg : dictGet acc.1.states state_name with
  | none => exact h
  | some s =>
    dsimp only
    cases ht : timeoutCheck s now with
    | none => exact h
    | some e => exact deactivate_state_nodup _ _ _ _ h

theorem check_timeouts_nodup (m : WatchdogStateMachine) (now : Int)
    (h : m.active_names.Nodup) :
    (check_timeouts m now).1.active_names.Nodup := by
  unfold check_timeouts
  exact foldl_preserve _ (fun a => a.1.active_names.Nodup)
    (fun a b hb => checkTimeoutsStep_nodup now a b hb) m.active_names (m, []) h

theorem activateStep_nodup (node_name : String) (now : Int)
    (acc : WatchdogStateMachine × List String) (state_name : String)
    (h : acc.1.active_names.Nodup) :
    (activateStep node_name now acc state_name).1.active_names.Nodup := by
  unfold activateStep
  dsimp only
  exact activate_state_nodup _ _ _ _ h

theorem advanceStep_nodup (node_name : String) (now : Int)
    (acc : WatchdogStateMachine × List String × List Notification)
    (state_name : String) (h : acc.1.active_names.Nodup) :
    (advanceStep node_name now acc state_name).1.active_names.Nodup := by
  have hr := check_transition_nodup acc.1 state_name node_name now h
  unfold advanceStep
  dsimp only
  cases (check_transition acc.1 state_name node_name now).2 with
  | none => exact hr
  | some p =>
    obtain ⟨b, msg⟩ := p
    cases b
    · exact hr
    · exact hr

theorem check_state_machine_rules_nodup (m : WatchdogStateMachine)
    (node_name : String) (now : Int) (h : m.active_names.Nodup) :
    (check_state_machine_rules m node_name now).machine.active_names.Nodup := by
  unfold check_state_machine_rules
  dsimp only
  have h1 : ((m.states.map Prod.fst).foldl (activateStep node_name now) (m, [])).1.active_names.Nodup :=
    foldl_preserve _ (fun a => a.1.active_names.Nodup)
      (fun a b hb => activateStep_nodup node_name now a b hb) _ _ h
  exact foldl_preserve _ (fun a => a.1.active_names.Nodup)
    (fun a b hb => advanceStep_nodup node_name now a b hb) _
    (((m.states.map Prod.fst).foldl (activateStep node_name now) (m, [])).1, [], []) h1

/-- C7: every engine operation — trigger (`activate_state`), advance
(`check_transition`), instance removal (`deactivate_state`), sweep
(`check_timeouts`), and a full event pass — preserves the invariant that
each rule name has at most one live instance: the active key list stays
duplicate-free. -/
theorem C7_at_most_one_active_instance (m : WatchdogStateMachine)
    (h : m.active_names.Nodup) (state_name trigger_node node_name : String)
    (reason : HistEvent) (now : Int) :
    (activate_state m state_name trigger_node now).1.active_names.Nodup
    ∧ (check_transition m state_name node_name now).1.active_names.Nodup
    ∧ (deactivate_state m state_name reason now).active_names.Nodup
    ∧ (check_timeouts m now).1.active_names.Nodup
    ∧ (check_state_machine_rules m node_name now).machine.active_names.Nodup :=
  ⟨activate_state_nodup m state_name trigger_node now h,
   check_transition_nodup m state_name node_name now h,
   deactivate_state_nodup m state_name reason now h,
   check_timeouts_nodup m now h,
   check_state_machine_rules_nodup m node_name now h⟩

/-- C7 witness: the invariant instantiated on a two-rule machine with one
active instance. -/
theorem C7_at_most_one_active_instance_witness :
    (activate_state
      { states := [("R",
          { name := "R", start_node := "A",
            transitions := [{ target_node := "B", timeout_ms := 100, description := "" }],
            description := "", is_active := true, last_activation_time := some 0,
            current_transition_index := 0 }),
          ("S",
          { name := "S", start_node := "A",
            transitions := [{ target_node := "C", timeout_ms := 200, description := "" }],
            description := "", is_active := false, last_activation_time := none,
            current_transition_index := 0 })],
        active_names := ["R"], state_history := [] }
      "S" "A" 9).1.active_names.Nodup := by
  exact (C7_at_most_one_active_instance
    { states := [("R",
        { name := "R", start_node := "A",
          transitions := [{ target_node := "B", timeout_ms := 100, description := "" }],
          description := "", is_active := true, last_activation_time := some 0,
          current_transition_index := 0 }),
        ("S",
        { name := "S", start_node := "A",
          transitions := [{ target_node := "C", timeout_ms := 200, description := "" }],
          description := "", is_active := false, last_activation_time := none,
          current_transition_index := 0 })],
      active_names := ["R"], state_history := [] }
    (by decide) "S" "A" "A" (HistEvent.RESET "A") 9).1

/-! ### Sweep idempotence -/

/-- The rule names carried by a list of timeout reports. -/
def toutNames (ts : List (String × WatchdogState × Int)) : List String :=
  ts.map (fun t => t.1)

/-- Is the stored instance of rule `n` past its current step's deadline at
instant `now`?  (Exactly the per-instance test the sweep applies.) -/
def timed_out_at (m : WatchdogStateMachine) (now : Int) (n : String) : Bool :=
  match dictGet m.states n with
  | none => false
  | some s => (timeoutCheck s now).isSome

theorem toutNames_append (xs ys : List (String × WatchdogState × Int)) :
    toutNames (xs ++ ys) = toutNames xs ++ toutNames ys := by
  simp [toutNames]

theorem checkTimeoutsStep_states_other (now : Int)
    (acc : WatchdogStateMachine × List (String × WatchdogState × Int))
    (state_name n : String) (hne : n ≠ state_name) :
    dictGet (checkTimeoutsStep now acc state_name).1.states n
      = dictGet acc.1.states n := by
  unfold checkTimeoutsStep
  cases hg : dictGet acc.1.states state_name with
  | none => rfl
  | some s =>
    dsimp only
    cases ht : timeoutCheck s now with
    | none => rfl
    | some e =>
      dsimp only
      unfold deactivate_state
      by_cases hm : memb acc.1.active_names state_name = true
      · rw [if_pos hm]
        dsimp only
        rw [hg]
        exact dictGet_dictSet_ne _ state_name n _ (Ne.symm hne)
      · rw [if_neg hm]

theorem checkTimeoutsStep_not_memb (now : Int)
    (acc : WatchdogStateMachine × List (String × WatchdogState × Int))
    (state_name x : String) (h : memb acc.1.active_names x = false) :
    memb (checkTimeoutsStep now acc state_name).1.active_names x = false := by
  unfold checkTimeoutsStep
  cases hg : dictGet acc.1.states state_name with
  | none => exact h
  | some s =>
    dsimp only
    cases ht : timeoutCheck s now with
    | none => exact h
    | some e =>
      dsimp only
      unfold deactivate_state
      by_cases hm : memb acc.1.active_names state_name = true
      · rw [if_pos hm]
        dsimp only
        cases hmm : memb (removeName acc.1.active_names state_name) x with
        | false => rfl
        | true => rw [memb_removeName_le _ _ _ hmm] at h; cases h
      · rw [if_neg hm]; exact h

theorem checkTimeoutsStep_reported (now : Int)
    (acc : WatchdogStateMachine × List (String × WatchdogState × Int))
    (state_name : String) (hnd : acc.1.active_names.Nodup) (x : String)
    (hx : x ∈ toutNames (checkTimeoutsStep now acc state_name).2) :
    x ∈ toutNames acc.2
    ∨ (x = state_name
       ∧ memb (checkTimeoutsStep now acc state_name).1.active_names x = false) := by
  revert hx
  unfold checkTimeoutsStep
  cases hg : dictGet acc.1.states state_name with
  | none => exact fun hx => Or.inl hx
  | some s =>
    dsimp only
    cases ht : timeoutCheck s now with
    | none => exact fun hx => Or.inl hx
    | some e =>
      dsimp only
      intro hx
      rw [toutNames_append] at hx
      rcases List.mem_append.mp hx with h1 | h2
      · exact Or.inl h1
      · have hxe : x = state_name := by
          simpa [toutNames] using h2
        subst hxe
        refine Or.inr ⟨rfl, ?_⟩
        unfold deactivate_state
        by_cases hm : memb acc.1.active_names x = true
        · rw [if_pos hm]
          dsimp only
          exact memb_removeName_self _ _ hnd
        · rw [if_neg hm]
          simpa using hm

theorem foldl_touts_structure (now : Int) :
    ∀ (l : List String) (acc : WatchdogStateMachine × List (String × WatchdogState × Int)),
      ∃ q, (l.foldl (checkTimeoutsStep now) acc).2 = acc.2 ++ q
        ∧ (toutNames q).Sublist l := by
  intro l
  induction l with
  | nil => exact fun acc => ⟨[], by simp, by simp [toutNames]⟩
  | cons a rest ih =>
    intro acc
    rcases ih (checkTimeoutsStep now acc a) with ⟨q, hq, hsub⟩
    have hstep : (checkTimeoutsStep now acc a).2 = acc.2
        ∨ ∃ s e, (checkTimeoutsStep now acc a).2 = acc.2 ++ [(a, deadOf s, e)] := by
      unfold checkTimeoutsStep
      cases hg : dictGet acc.1.states a with
      | none => exact Or.inl rfl
      | some s =>
        dsimp only
        cases ht : timeoutCheck s now with
        | none => exact Or.inl rfl
        | some e => exact Or.inr ⟨s, e, rfl⟩
    rw [List.foldl_cons]
    rcases hstep with he | ⟨s, e, he⟩
    · refine ⟨q, ?_, hsub.cons a⟩
      rw [hq, he]
    · refine ⟨(a, deadOf s, e) :: q, ?_, ?_⟩
      · rw [hq, he]
        simp
      · simpa [toutNames] using List.Sublist.cons₂ a hsub

theorem foldl_not_memb (now : Int) (x : String) :
    ∀ (l : List String) (acc : WatchdogStateMachine × List (String × WatchdogState × Int)),
      memb acc.1.active_names x = false →
      memb (l.foldl (checkTimeoutsStep now) acc).1.active_names x = false := by
  intro l acc h
  exact foldl_preserve _ (fun a => memb a.1.active_names x = false)
    (fun a b hb => checkTimeoutsStep_not_memb now a b x hb) l acc h

theorem foldl_touts_removed (now : Int) :
    ∀ (l : List String) (acc : WatchdogStateMachine × List (String × WatchdogState × Int)),
      acc.1.active_names.Nodup →
      ∀ x ∈ toutNames (l.foldl (checkTimeoutsStep now) acc).2,
        x ∈ toutNames acc.2
        ∨ memb (l.foldl (checkTimeoutsStep now) acc).1.active_names x = false := by
  intro l
  induction l with
  | nil => exact fun acc _ x hx => Or.inl hx
  | cons a rest ih =>
    intro acc hnd x hx
    rw [List.foldl_cons] at hx ⊢
    have hnd' : (checkTimeoutsStep now acc a).1.active_names.Nodup :=
      checkTimeoutsStep_nodup now acc a hnd
    rcases ih (checkTimeoutsStep now acc a) hnd' x hx with h1 | h2
    · rcases checkTimeoutsStep_reported now acc a hnd x h1 with hin | ⟨hxe, hmem⟩
      · exact Or.inl hin
      · exact Or.inr (foldl_not_memb now x rest (checkTimeoutsStep now acc a) hmem)
    · exact Or.inr h2

theorem foldl_touts_complete (now : Int) (m0 : WatchdogStateMachine) :
    ∀ (l : List String) (acc : WatchdogStateMachine × List (String × WatchdogState × Int)),
      l.Nodup →
      (∀ k ∈ l, dictGet acc.1.states k = dictGet m0.states k) →
      ∀ n ∈ l, timed_out_at m0 now n = true →
        n ∈ toutNames (l.foldl (checkTimeoutsStep now) acc).2 := by
  intro l
  induction l with
  | nil => exact fun acc _ _ n hn => absurd hn (List.not_mem_nil n)
  | cons a rest ih =>
    intro acc hnd hdict n hn hto
    rw [List.foldl_cons]
    rw [List.nodup_cons] at hnd
    rcases List.mem_cons.mp hn with rfl | hmem
    · rw [timed_out_at] at hto
      cases hg0 : dictGet m0.states n with
      | none => rw [hg0] at hto; cases hto
      | some s =>
        rw [hg0] at hto
        dsimp only at hto
        cases ht : timeoutCheck s now with
        | none => rw [ht] at hto; cases hto
        | some e =>
          have hstep : (checkTimeoutsStep now acc n).2 = acc.2 ++ [(n, deadOf s, e)] := by
            unfold checkTimeoutsStep
            rw [hdict n (List.mem_cons_self n rest), hg0]
            dsimp only
            rw [ht]
          rcases foldl_touts_structure now rest (checkTimeoutsStep now acc n) with ⟨q, hq, _⟩
          rw [hq, hstep, toutNames_append, toutNames_append]
          simp [toutNames]
    · refine ih (checkTimeoutsStep now acc a) hnd.2 ?_ n hmem hto
      intro k hk
      have hka : k ≠ a := fun he => hnd.1 (he ▸ hk)
      rw [checkTimeoutsStep_states_other now acc a k hka]
      exact hdict k (List.mem_cons_of_mem a hk)

/-- C8: with a duplicate-free active set, one sweep reports each timed-out
instance exactly once — the reported names are duplicate-free and every
active instance past its deadline is among them — and a second sweep at any
later instant, with no intervening trigger or advance, never fires a
timeout for an instance the first sweep already removed. -/
theorem C8_sweep_no_double_fire (m : WatchdogStateMachine) (t1 t2 : Int)
    (h : m.active_names.Nodup) :
    (toutNames (check_timeouts m t1).2).Nodup
    ∧ (∀ n, memb m.active_names n = true → timed_out_at m t1 n = true →
        n ∈ toutNames (check_timeouts m t1).2)
    ∧ (∀ n, n ∈ toutNames (check_timeouts m t1).2 →
        n ∉ toutNames (check_timeouts (check_timeouts m t1).1 t2).2) := by
  refine ⟨?_, ?_, ?_⟩
  · rcases foldl_touts_structure t1 m.active_names (m, []) with ⟨q, hq, hsub⟩
    rw [check_timeouts, hq]
    simpa using hsub.nodup h
  · intro n hmem hto
    rw [check_timeouts]
    exact foldl_touts_complete t1 m m.active_names (m, []) h
      (fun k _ => rfl) n ((memb_iff _ _).mp hmem) hto
  · intro n hn1 hn2
    have hrem := foldl_touts_removed t1 m.active_names (m, []) h n
      (by rw [check_timeouts] at hn1; exact hn1)
    rcases hrem with hfalse | hnomem
    · simp [toutNames] at hfalse
    · rcases foldl_touts_structure t2 (check_timeouts m t1).1.active_names
        ((check_timeouts m t1).1, []) with ⟨q, hq, hsub⟩
      rw [check_timeouts] at hn2
      rw [hq] at hn2
      simp only [List.nil_append] at hn2
      have hmem2 : n ∈ (check_timeouts m t1).1.active_names := hsub.mem hn2
      rw [← memb_iff] at hmem2
      have hnomem2 : memb (check_timeouts m t1).1.active_names n = false := hnomem
      rw [hnomem2] at hmem2
      cases hmem2

/-- C8 witness: a sweep of a machine whose single active instance is past
its deadline reports that instance. -/
theorem C8_sweep_no_double_fire_witness :
    "R" ∈ toutNames (check_timeouts
      { states := [("R",
          { name := "R", start_node := "A",
            transitions := [{ target_node := "B", timeout_ms := 100, description := "" }],
            description := "", is_active := true, last_activation_time := some 0,
            current_transition_index := 0 })],
        active_names := ["R"], state_history := [] }
      500).2 := by
  exact (C8_sweep_no_double_fire
    { states := [("R",
        { name := "R", start_node := "A",
          transitions := [{ target_node := "B", timeout_ms := 100, description := "" }],
          description := "", is_active := true, last_activation_time := some 0,
          current_transition_index := 0 })],
      active_names := ["R"], state_history := [] }
    500 600 (by decide)).2.1 "R" (by decide) (by decide)
